import Mathlib

/-!
Verification development for the client-side search session controller of
the Precision File Search front end (static/main_app.js).

Strings are modelled as lists of characters so that splitting, trimming and
escaping can be reasoned about by structural induction.  The browser pieces
the controller relies on are embedded explicitly:

* localStorage-backed collections become pure values (a list for the search
  history, an association list with unique keys for the saved-search object);
* the WebSocket is a ready-state field plus a count of constructor calls;
  per the WHATWG HTML specification, a queued message task fires the
  onmessage handler only while the ready state is OPEN, so delivery is
  guarded on the ready state;
* the results pane is a list of segments (a raw text node set through
  innerHTML, or one rendered result item per found path), whose textContent
  is the concatenation of the segment texts.
-/

namespace PFS

/-- JavaScript whitespace characters recognised by String.prototype.trim
(space, tab, LF, VT, FF, CR, NBSP). -/
def isJsWhitespace (c : Char) : Bool :=
  c = ' ' || c = '\t' || c = '\n' || c = '\x0b' || c = '\x0c' || c = '\r' || c = ' '

/-- String.prototype.split at a comma separator: the empty string yields
one empty field, as in JavaScript. -/
def jsSplitComma : List Char → List (List Char)
  | [] => [[]]
  | c :: rest =>
    if c = ',' then [] :: jsSplitComma rest
    else
      match jsSplitComma rest with
      | [] => [[c]]
      | h :: t => (c :: h) :: t

/-- Drop trailing JS whitespace (the right half of String.prototype.trim). -/
def jsTrimRight : List Char → List Char
  | [] => []
  | c :: rest =>
    match jsTrimRight rest with
    | [] => if isJsWhitespace c then [] else [c]
    | h :: t => c :: h :: t

/-- String.prototype.trim: drop leading and trailing JS whitespace. -/
def jsTrim (l : List Char) : List Char :=
  jsTrimRight (l.dropWhile isJsWhitespace)

/-- The common field pipeline of buildSearchPayload:
value.split(',').map(x => x.trim()).filter(Boolean). -/
def parseListField (raw : List Char) : List (List Char) :=
  ((jsSplitComma raw).map jsTrim).filter (fun x => x ≠ [])

/-- The unit dropdown values accepted by convertSizeToBytes. -/
inductive SizeUnit
  | KB
  | MB
  | GB
deriving DecidableEq, Repr

/-- The multipliers object of convertSizeToBytes. -/
def multiplier : SizeUnit → Int
  | .KB => 1024
  | .MB => 1024 ^ 2
  | .GB => 1024 ^ 3

/-- convertSizeToBytes(value, unit).  The value argument is the result of
parseInt on the size input: none stands for NaN (empty or non-numeric
input).  The JavaScript guard is !value || value <= 0, so NaN, 0 and
negative values all yield null. -/
def convertSizeToBytes (value : Option Int) (unit : SizeUnit) : Option Int :=
  match value with
  | none => none
  | some v => if v ≤ 0 then none else some (v * multiplier unit)

/-- The search_type radio values. -/
inductive SearchType
  | file_content
  | file_name
  | folder_name
  | file_category
deriving DecidableEq, Repr

/-- The object literal returned by buildSearchPayload (the SearchRequest). -/
structure SearchPayload where
  search_path : List Char
  keywords : List (List Char)
  search_type : SearchType
  excluded_folders : List (List Char)
  file_extensions : List (List Char)
  include_dot_folders : Bool
  case_sensitive : Bool
  use_regex : Bool
  file_category : List Char
  min_size : Option Int
  max_size : Option Int
deriving DecidableEq, Repr

/-- The raw form control values buildSearchPayload reads from the DOM.
The numeric size values are parseInt results (none = NaN). -/
structure FormState where
  search_path : List Char
  keywordsRaw : List Char
  search_type : SearchType
  excludedRaw : List Char
  extensionsRaw : List Char
  include_dot_folders : Bool
  case_sensitive : Bool
  use_regex : Bool
  file_category : List Char
  minSizeValue : Option Int
  minSizeUnit : SizeUnit
  maxSizeValue : Option Int
  maxSizeUnit : SizeUnit
deriving DecidableEq, Repr

/-- buildSearchPayload(). -/
def buildSearchPayload (f : FormState) : SearchPayload where
  search_path := f.search_path
  keywords := parseListField f.keywordsRaw
  search_type := f.search_type
  excluded_folders := parseListField f.excludedRaw
  file_extensions := parseListField f.extensionsRaw
  include_dot_folders := f.include_dot_folders
  case_sensitive := f.case_sensitive
  use_regex := f.use_regex
  file_category := f.file_category
  min_size := convertSizeToBytes f.minSizeValue f.minSizeUnit
  max_size := convertSizeToBytes f.maxSizeValue f.maxSizeUnit

/-- const MAX_HISTORY = 15. -/
def MAX_HISTORY : Nat := 15

/-- addSearchToHistory(payload): history.unshift(payload); history =
history.slice(0, MAX_HISTORY). -/
def addSearchToHistory (payload : SearchPayload) (history : List SearchPayload) :
    List SearchPayload :=
  (payload :: history).take MAX_HISTORY

/-- The history-delete branch of the searchHistoryList click listener:
history.splice(index, 1). -/
def removeHistoryIndex (i : Nat) (history : List SearchPayload) : List SearchPayload :=
  history.take i ++ history.drop (i + 1)

/-- The history produced by a sequence of startSearch calls (oldest first),
beginning from an empty store. -/
def runStarts (ps : List SearchPayload) : List SearchPayload :=
  ps.foldl (fun h p => addSearchToHistory p h) []

/-- The savedSearches localStorage object: JSON object modelled as an
association list whose keys are unique. -/
abbrev SavedSearches : Type := List (List Char × SearchPayload)

/-- JavaScript property assignment searches[name] = payload: overwrite in
place when the key exists, append otherwise. -/
def setSavedSearch (m : SavedSearches) (name : List Char) (p : SearchPayload) :
    SavedSearches :=
  if name ∈ m.map Prod.fst then
    m.map (fun kv => if kv.1 = name then (name, p) else kv)
  else
    m ++ [(name, p)]

/-- Property read searches[name] used by loadSelectedSearch. -/
def getSavedSearch (m : SavedSearches) (name : List Char) : Option SearchPayload :=
  (m.find? (fun kv => kv.1 = name)).map Prod.snd

/-- saveCurrentSearch(): the prompt result is null (cancelled) or a string;
the guard if (!name) return leaves the store untouched for null and for the
empty string. -/
def saveCurrentSearch (promptResult : Option (List Char)) (m : SavedSearches)
    (payload : SearchPayload) : SavedSearches :=
  match promptResult with
  | none => m
  | some name => if name = [] then m else setSavedSearch m name payload

/-- WebSocket.readyState. -/
inductive WsReady
  | CONNECTING
  | OPEN
  | CLOSING
  | CLOSED
deriving DecidableEq, Repr

/-- Server-to-client session events dispatched by handleWebSocketMessage
(the startup-only config message is handled on a separate throwaway socket
and carries no session state, so it is omitted here). -/
inductive WsEvent
  | error (message : List Char)
  | scan_start (task_id : Nat)
  | item_found (path : List Char)
  | scan_progress (scanned found : Nat)
  | scan_complete (results : List (List Char)) (summary : List Char)
deriving DecidableEq, Repr

/-- One child of the resultsDiv: either a raw text assignment or a rendered
result item for one path. -/
inductive PaneSeg
  | raw (s : List Char)
  | item (path : List Char)
deriving DecidableEq, Repr

/-- textContent of one segment: for a result item the visible text is the
path (escapeHTML followed by HTML parsing round-trips the text). -/
def segText : PaneSeg → List Char
  | .raw s => s
  | .item p => p

/-- resultsDiv.textContent. -/
def paneText (pane : List PaneSeg) : List Char :=
  (pane.map segText).flatten

/-- appendSingleResult(path): clear the pane when its text still starts
with the '>' placeholder sentinel, then append one result item. -/
def appendSingleResult (path : List Char) (pane : List PaneSeg) : List PaneSeg :=
  (if (paneText pane).head? = some '>' then [] else pane) ++ [.item path]

/-- The '> NO MATCHING ITEMS FOUND.' text of renderResults. -/
def noMatchText : List Char := "> NO MATCHING ITEMS FOUND.".toList

/-- renderResults(results): clear the pane, then either append every path
and reveal the export button, or leave the (now empty) pane alone.  Returns
the new pane and the new export-button visibility. -/
def renderResults (results : List (List Char)) (exportVisible : Bool) :
    List PaneSeg × Bool :=
  let cleared : List PaneSeg := []
  if results.length > 0 then
    (results.foldl (fun p path => appendSingleResult path p) cleared, true)
  else
    ((if (paneText cleared).head? = some '>' then [.raw noMatchText] else cleared),
      exportVisible)

/-- The '> AWAITING DATA...' placeholder installed by resetUIBeforeSearch. -/
def awaitingText : List Char := "> AWAITING DATA...".toList

/-- Log line for the error branch: > ERROR: message inside a status-error
span, built by string interpolation. -/
def errEntryPre : List Char := "<span class=\"status-error\">> ERROR: ".toList

/-- Closing tag of the error log line. -/
def errEntryPost : List Char := "</span>".toList

/-- The interpolated error log entry. -/
def errorLogEntry (msg : List Char) : List Char :=
  errEntryPre ++ msg ++ errEntryPost

/-- The module-level mutable state the classic-search functions touch. -/
structure AppState where
  wsState : WsReady
  openCount : Nat
  history : List SearchPayload
  searchResults : List (List Char)
  pane : List PaneSeg
  exportVisible : Bool
  formHidden : Bool
  stopDisabled : Bool
  log : List (List Char)
  logProgress : Option (List Char)
deriving DecidableEq, Repr

/-- handleWebSocketMessage(data) for session events. -/
def handleWebSocketMessage (e : WsEvent) (s : AppState) : AppState :=
  match e with
  | .error msg =>
    { s with
      log := s.log ++ [errorLogEntry msg]
      wsState := if s.wsState = .OPEN then .CLOSING else s.wsState }
  | .scan_start tid =>
    { s with log := s.log ++ ["> TASK ID ".toList ++ (toString tid).toList ++ " INITIATED.".toList] }
  | .item_found path =>
    { s with pane := appendSingleResult path s.pane }
  | .scan_progress scanned found =>
    { s with logProgress := some ("> SCANNING... [ITEMS: ".toList ++ (toString scanned).toList
        ++ " | MATCHES: ".toList ++ (toString found).toList ++ "]".toList) }
  | .scan_complete results summary =>
    let rendered := renderResults results s.exportVisible
    { s with
      logProgress := none
      log := s.log ++ [summary]
      searchResults := results
      pane := rendered.1
      exportVisible := rendered.2 }

/-- Message delivery: per the WHATWG HTML specification the queued message
task fires onmessage only while readyState is OPEN, so anything arriving at
or after close() is discarded unprocessed. -/
def deliverEvent (e : WsEvent) (s : AppState) : AppState :=
  if s.wsState = .OPEN then handleWebSocketMessage e s else s

/-- startSearch() up to the point the WebSocket constructor returns: build
the payload, append it to the history, open a fresh channel (openCount
counts constructor calls; the new socket starts CONNECTING).  No state
guard is present in the source. -/
def startSearch (f : FormState) (s : AppState) : AppState :=
  let payload := buildSearchPayload f
  { s with
    history := addSearchToHistory payload s.history
    openCount := s.openCount + 1
    wsState := .CONNECTING }

/-- resetUIBeforeSearch(): clear results, show the placeholder, hide export,
hide the search form, re-enable the stop button. -/
def resetUIBeforeSearch (s : AppState) : AppState :=
  { s with
    searchResults := []
    pane := [.raw awaitingText]
    exportVisible := false
    formHidden := true
    stopDisabled := false }

/-- ws.onopen: the socket becomes OPEN, the UI is reset and the two initial
log lines are written (the first with clear = true). -/
def wsOnOpen (f : FormState) (s : AppState) : AppState :=
  let payload := buildSearchPayload f
  let s₁ := resetUIBeforeSearch { s with wsState := .OPEN }
  { s₁ with
    log := ["> SEARCHING FOR: ".toList ++ (payload.keywords.map id).flatten,
            "> TARGET PATH: ".toList ++ payload.search_path]
    logProgress := none }

/-- stopSearch(): close the channel when it is open (readyState becomes
CLOSING), log the termination line, disable the stop button. -/
def stopSearch (s : AppState) : AppState :=
  let s₁ := if s.wsState = .OPEN then { s with wsState := WsReady.CLOSING } else s
  { s₁ with
    log := s₁.log ++ ["> SCAN MANUALLY TERMINATED.".toList]
    stopDisabled := true }

/-- escapeHTML(str): set textContent on a detached paragraph and read back
innerHTML; the HTML fragment serialisation of a text node replaces the
ampersand, less-than, greater-than and no-break-space characters by their
entities. -/
def escChar (c : Char) : List Char :=
  if c = '&' then [ '&', 'a', 'm', 'p', ';']
  else if c = '<' then [ '&', 'l', 't', ';']
  else if c = '>' then [ '&', 'g', 't', ';']
  else if c = ' ' then [ '&', 'n', 'b', 's', 'p', ';']
  else [c]

/-- escapeHTML over a whole string. -/
def escapeHTML (s : List Char) : List Char :=
  s.flatMap escChar

/-! ### Sample values used by counterexamples and witnesses -/

/-- A concrete search payload. -/
def samplePayload : SearchPayload where
  search_path := ['p']
  keywords := [['k']]
  search_type := .file_content
  excluded_folders := []
  file_extensions := []
  include_dot_folders := false
  case_sensitive := false
  use_regex := false
  file_category := []
  min_size := none
  max_size := none

/-- A second concrete payload, differing from the first. -/
def samplePayload2 : SearchPayload := { samplePayload with search_path := ['q'] }

/-- A third concrete payload. -/
def samplePayload3 : SearchPayload := { samplePayload with search_path := ['r'] }

/-- A concrete form state. -/
def sampleForm : FormState where
  search_path := ['p']
  keywordsRaw := ['k']
  search_type := .file_content
  excludedRaw := []
  extensionsRaw := []
  include_dot_folders := false
  case_sensitive := false
  use_regex := false
  file_category := []
  minSizeValue := none
  minSizeUnit := .KB
  maxSizeValue := none
  maxSizeUnit := .KB

/-- A concrete app state in the Scanning phase: channel OPEN, placeholder
shown, no results yet, export hidden, form hidden. -/
def scanningState : AppState where
  wsState := .OPEN
  openCount := 1
  history := []
  searchResults := []
  pane := [.raw awaitingText]
  exportVisible := false
  formHidden := true
  stopDisabled := false
  log := []
  logProgress := none

/-! ### History lemmas -/

lemma take_append_take {α : Type} (n : Nat) (xs ys : List α) :
    (xs ++ ys.take n).take n = (xs ++ ys).take n := by
  rw [List.take_append_eq_append_take, List.take_append_eq_append_take, List.take_take]
  have h : (n - xs.length) ⊓ n = n - xs.length := Nat.min_eq_left (Nat.sub_le n xs.length)
  rw [h]

lemma runStarts_eq_aux (ps : List SearchPayload) :
    ∀ acc : List SearchPayload, acc.length ≤ MAX_HISTORY →
      ps.foldl (fun h p => addSearchToHistory p h) acc =
        (ps.reverse ++ acc).take MAX_HISTORY := by
  induction ps with
  | nil =>
    intro acc h
    simp [List.take_of_length_le h]
  | cons p t ih =>
    intro acc h
    simp only [List.foldl_cons]
    rw [ih (addSearchToHistory p acc)
      (by simp only [addSearchToHistory, List.length_take]; omega)]
    rw [addSearchToHistory, take_append_take]
    simp [List.reverse_cons, List.append_assoc]

lemma runStarts_eq (ps : List SearchPayload) :
    runStarts ps = ps.reverse.take MAX_HISTORY := by
  have h := runStarts_eq_aux ps [] (by simp [MAX_HISTORY])
  simpa [runStarts] using h

/-! ### Saved-search lemmas -/

lemma find_map_overwrite (name : List Char) (p : SearchPayload) :
    ∀ m : SavedSearches, name ∈ m.map Prod.fst →
      (m.map (fun kv => if kv.1 = name then (name, p) else kv)).find?
        (fun kv => kv.1 = name) = some (name, p) := by
  intro m
  induction m with
  | nil => intro h; simp at h
  | cons kv t ih =>
    intro h
    by_cases hk : kv.1 = name
    · simp only [List.map_cons, if_pos hk]
      rw [List.find?_cons_of_pos _ (by simp)]
    · simp only [List.map_cons, if_neg hk]
      rw [List.find?_cons_of_neg _ (by simp [hk])]
      apply ih
      simp only [List.map_cons, List.mem_cons] at h
      rcases h with h | h
      · exact absurd h.symm hk
      · exact h

lemma find_none_of_absent (name : List Char) (m : SavedSearches)
    (h : name ∉ m.map Prod.fst) :
    m.find? (fun kv => kv.1 = name) = none := by
  rw [List.find?_eq_none]
  intro kv hkv hpred
  simp only [decide_eq_true_eq] at hpred
  exact h (hpred ▸ List.mem_map_of_mem Prod.fst hkv)

lemma getSaved_set_self (m : SavedSearches) (name : List Char) (p : SearchPayload) :
    getSavedSearch (setSavedSearch m name p) name = some p := by
  rw [getSavedSearch, setSavedSearch]
  by_cases h : name ∈ m.map Prod.fst
  · rw [if_pos h, find_map_overwrite name p m h]
    rfl
  · rw [if_neg h, List.find?_append, find_none_of_absent name m h]
    simp [List.find?]

lemma setSaved_keys_of_mem (m : SavedSearches) (name : List Char) (p : SearchPayload)
    (h : name ∈ m.map Prod.fst) :
    (setSavedSearch m name p).map Prod.fst = m.map Prod.fst := by
  rw [setSavedSearch, if_pos h, List.map_map]
  apply List.map_congr_left
  intro kv _
  by_cases hk : kv.1 = name
  · simp [Function.comp, hk]
  · simp [Function.comp, hk]

lemma setSaved_nodup (m : SavedSearches) (name : List Char) (p : SearchPayload)
    (h : (m.map Prod.fst).Nodup) :
    ((setSavedSearch m name p).map Prod.fst).Nodup := by
  by_cases hm : name ∈ m.map Prod.fst
  · rw [setSaved_keys_of_mem m name p hm]
    exact h
  · rw [setSavedSearch, if_neg hm, List.map_append]
    rw [List.nodup_append]
    refine ⟨h, by simp, ?_⟩
    intro a ha hb
    simp only [List.map_cons, List.map_nil, List.mem_singleton] at hb
    exact hm (hb ▸ ha)

lemma getSaved_set_other (m : SavedSearches) (name : List Char) (p : SearchPayload)
    (k : List Char) (hk : k ≠ name) :
    getSavedSearch (setSavedSearch m name p) k = getSavedSearch m k := by
  rw [getSavedSearch, getSavedSearch, setSavedSearch]
  by_cases h : name ∈ m.map Prod.fst
  · rw [if_pos h]
    clear h
    induction m with
    | nil => rfl
    | cons kv t ih =>
      by_cases hkv : kv.1 = name
      · simp only [List.map_cons, if_pos hkv]
        rw [List.find?_cons_of_neg _ (by simp; exact fun hh => hk hh.symm),
          List.find?_cons_of_neg _ (by simp [hkv]; exact fun hh => hk hh.symm)]
        exact ih
      · simp only [List.map_cons, if_neg hkv]
        by_cases hkk : kv.1 = k
        · rw [List.find?_cons_of_pos _ (by simp [hkk]),
            List.find?_cons_of_pos _ (by simp [hkk])]
        · rw [List.find?_cons_of_neg _ (by simp [hkk]),
            List.find?_cons_of_neg _ (by simp [hkk])]
          exact ih
  · rw [if_neg h, List.find?_append]
    rw [List.find?_cons_of_neg _ (by simp; exact fun hh => hk hh.symm)]
    simp [List.find?]

/-! ### Claim C1 -/

/-- C1 counterexample: in the concrete Scanning state, startSearch is not a
no-op — it opens a second channel and the history gains an entry, refuting
the claim that start() fails fast while Connecting or Scanning. -/
theorem start_noop_counterexample :
    (scanningState.wsState = WsReady.CONNECTING ∨ scanningState.wsState = WsReady.OPEN) ∧
    ¬ ((startSearch sampleForm scanningState).openCount = scanningState.openCount ∧
       (startSearch sampleForm scanningState).history = scanningState.history) := by
  constructor
  · exact Or.inr rfl
  · intro h
    exact absurd h.1 (by decide)

/-- C1 (amended): startSearch has no Connecting/Scanning guard: every call,
whatever the current state, opens one more transport channel (the fresh
socket starts CONNECTING) and prepends the built request to the persisted
history, bounded to 15 entries. -/
theorem start_always_opens_spec (f : FormState) (s : AppState) :
    (startSearch f s).openCount = s.openCount + 1 ∧
    (startSearch f s).wsState = WsReady.CONNECTING ∧
    (startSearch f s).history = (buildSearchPayload f :: s.history).take MAX_HISTORY ∧
    (startSearch f s).history.length = min (s.history.length + 1) MAX_HISTORY := by
  refine ⟨rfl, rfl, rfl, ?_⟩
  simp only [startSearch, addSearchToHistory, List.length_take, List.length_cons]
  omega

/-! ### Claim C3 -/

/-- C3: after a sequence of start() calls the stored history is exactly the
most recent 15 requests, newest first (so its length is min(N, 15)); adding
keeps the bound; deleting index i drops exactly one entry, leaves earlier
entries in place and shifts later entries up by one, preserving the bound. -/
theorem history_spec (p : SearchPayload) (ps : List SearchPayload)
    (hist : List SearchPayload) (i : Nat)
    (hlen : hist.length ≤ MAX_HISTORY) (hi : i < hist.length) :
    runStarts ps = ps.reverse.take MAX_HISTORY ∧
    (runStarts ps).length = min ps.length MAX_HISTORY ∧
    (addSearchToHistory p hist).length ≤ MAX_HISTORY ∧
    (removeHistoryIndex i hist).length = hist.length - 1 ∧
    (removeHistoryIndex i hist).length ≤ MAX_HISTORY ∧
    (∀ j, j < i → (removeHistoryIndex i hist)[j]? = hist[j]?) ∧
    (∀ j, i ≤ j → (removeHistoryIndex i hist)[j]? = hist[j + 1]?) := by
  refine ⟨runStarts_eq ps, ?_, ?_, ?_, ?_, ?_, ?_⟩
  · rw [runStarts_eq]
    simp only [List.length_take, List.length_reverse]
    omega
  · simp only [addSearchToHistory, List.length_take, List.length_cons]
    omega
  · simp only [removeHistoryIndex, List.length_append, List.length_take, List.length_drop]
    omega
  · simp only [removeHistoryIndex, List.length_append, List.length_take, List.length_drop]
    omega
  · intro j hj
    have hjl : j < (hist.take i).length := by
      simp only [List.length_take]
      omega
    rw [removeHistoryIndex, List.getElem?_append, if_pos hjl, List.getElem?_take,
      if_pos hj]
  · intro j hj
    have hlen2 : (hist.take i).length = i := by
      simp only [List.length_take]
      omega
    rw [removeHistoryIndex, List.getElem?_append, if_neg (by omega), hlen2,
      List.getElem?_drop]
    congr 1
    omega

/-- C3 witness: deleting index 1 of a concrete three-entry history shifts the
entry that was at index 2 into index 1. -/
theorem history_spec_witness :
    (removeHistoryIndex 1 [samplePayload, samplePayload2, samplePayload3])[1]? =
      [samplePayload, samplePayload2, samplePayload3][2]? :=
  (history_spec samplePayload [] [samplePayload, samplePayload2, samplePayload3] 1
    (by decide) (by decide)).2.2.2.2.2.2 1 (by decide)

/-! ### Claim C5 -/

/-- C5: save(name, req) then load(name) returns exactly req; saving an
existing name overwrites in place (same entry count, other names untouched)
while a fresh name appends one entry; key uniqueness is preserved. -/
theorem save_load_spec (m : SavedSearches) (name : List Char) (p : SearchPayload)
    (hname : name ≠ []) (hnodup : (m.map Prod.fst).Nodup) :
    getSavedSearch (saveCurrentSearch (some name) m p) name = some p ∧
    ((saveCurrentSearch (some name) m p).map Prod.fst).Nodup ∧
    (name ∈ m.map Prod.fst → (saveCurrentSearch (some name) m p).length = m.length) ∧
    (name ∉ m.map Prod.fst → (saveCurrentSearch (some name) m p).length = m.length + 1) ∧
    (∀ k, k ≠ name →
      getSavedSearch (saveCurrentSearch (some name) m p) k = getSavedSearch m k) := by
  have hsave : saveCurrentSearch (some name) m p = setSavedSearch m name p := by
    simp [saveCurrentSearch, hname]
  rw [hsave]
  refine ⟨getSaved_set_self m name p, setSaved_nodup m name p hnodup, ?_, ?_, ?_⟩
  · intro h
    rw [setSavedSearch, if_pos h, List.length_map]
  · intro h
    rw [setSavedSearch, if_neg h, List.length_append, List.length_cons, List.length_nil]
  · intro k hk
    exact getSaved_set_other m name p k hk

/-- C5 witness: overwriting the single stored name and loading it back
returns the new payload. -/
theorem save_load_spec_witness :
    getSavedSearch (saveCurrentSearch (some ['n']) [(['n'], samplePayload)] samplePayload2)
      ['n'] = some samplePayload2 :=
  (save_load_spec [(['n'], samplePayload)] ['n'] samplePayload2 (by decide) (by decide)).1

/-! ### Claim C7 -/

/-- C7: the built payload's min_size and max_size come from
convertSizeToBytes, which yields null exactly when the parsed source value
is not a positive number and otherwise multiplies by 1024, 1024² or 1024³
for KB, MB, GB respectively. -/
theorem size_conversion_spec (f : FormState) (u : SizeUnit) (n : Int)
    (hn : 0 < n) :
    convertSizeToBytes (some n) u = some (n * multiplier u) ∧
    (∀ w : Option Int, (∀ m : Int, w = some m → m ≤ 0) → convertSizeToBytes w u = none) ∧
    multiplier SizeUnit.KB = 1024 ∧
    multiplier SizeUnit.MB = 1024 ^ 2 ∧
    multiplier SizeUnit.GB = 1024 ^ 3 ∧
    (buildSearchPayload f).min_size = convertSizeToBytes f.minSizeValue f.minSizeUnit ∧
    (buildSearchPayload f).max_size = convertSizeToBytes f.maxSizeValue f.maxSizeUnit := by
  refine ⟨?_, ?_, rfl, rfl, rfl, rfl, rfl⟩
  · rw [convertSizeToBytes, if_neg (by omega)]
  · intro w hw
    match w with
    | none => rfl
    | some m =>
      have hm := hw m rfl
      rw [convertSizeToBytes, if_pos hm]

/-- C7 witness: 5 KB converts to 5120 bytes. -/
theorem size_conversion_spec_witness :
    convertSizeToBytes (some 5) SizeUnit.KB = some 5120 := by
  have h := (size_conversion_spec sampleForm SizeUnit.KB 5 (by decide)).1
  norm_num [multiplier] at h
  exact h

/-! ### Claim C2 -/

/-- C2: stop() during Scanning closes the channel (the session is
Cancelled: readyState leaves OPEN, the stop control is terminated) and no
event delivered at or after the close is ever processed; in particular a
scan_complete arriving late is ignored, so the captured result set stays
empty and export stays disabled. -/
theorem stop_cancels_spec (s : AppState) (h : s.wsState = WsReady.OPEN)
    (hres : s.searchResults = []) (hexp : s.exportVisible = false) :
    (stopSearch s).wsState = WsReady.CLOSING ∧
    (stopSearch s).stopDisabled = true ∧
    (∀ e : WsEvent, deliverEvent e (stopSearch s) = stopSearch s) ∧
    (∀ results summary,
      (deliverEvent (WsEvent.scan_complete results summary) (stopSearch s)).searchResults
        = [] ∧
      (deliverEvent (WsEvent.scan_complete results summary) (stopSearch s)).exportVisible
        = false) := by
  have hws : (stopSearch s).wsState = WsReady.CLOSING := by
    simp [stopSearch, h]
  have hdel : ∀ e : WsEvent, deliverEvent e (stopSearch s) = stopSearch s := by
    intro e
    rw [deliverEvent, if_neg (by rw [hws]; simp)]
  refine ⟨hws, by simp [stopSearch], hdel, ?_⟩
  intro results summary
  rw [hdel (WsEvent.scan_complete results summary)]
  constructor
  · simp [stopSearch, h, hres]
  · simp [stopSearch, h, hexp]

/-- C2 witness: in the concrete Scanning state, a scan_complete delivered
after stop() changes nothing. -/
theorem stop_cancels_spec_witness :
    deliverEvent (WsEvent.scan_complete [['a']] []) (stopSearch scanningState) =
      stopSearch scanningState :=
  (stop_cancels_spec scanningState rfl rfl rfl).2.2.1 (WsEvent.scan_complete [['a']] [])

/-! ### Claim C4 -/

/-- C4: from a Scanning state still showing the placeholder, the events
item_found(a), item_found(b), scan_complete(results [a, b]) processed in
arrival order render exactly the result list [a, b] in that order at every
step, and the final scan_complete enables export and captures the results. -/
theorem events_in_order_spec (s : AppState) (summary : List Char)
    (hopen : s.wsState = WsReady.OPEN)
    (hpane : (paneText s.pane).head? = some '>') :
    (deliverEvent (WsEvent.item_found ['a']) s).pane = [PaneSeg.item ['a']] ∧
    (deliverEvent (WsEvent.item_found ['b'])
      (deliverEvent (WsEvent.item_found ['a']) s)).pane =
      [PaneSeg.item ['a'], PaneSeg.item ['b']] ∧
    (deliverEvent (WsEvent.scan_complete [['a'], ['b']] summary)
      (deliverEvent (WsEvent.item_found ['b'])
        (deliverEvent (WsEvent.item_found ['a']) s))).pane =
      [PaneSeg.item ['a'], PaneSeg.item ['b']] ∧
    (deliverEvent (WsEvent.scan_complete [['a'], ['b']] summary)
      (deliverEvent (WsEvent.item_found ['b'])
        (deliverEvent (WsEvent.item_found ['a']) s))).exportVisible = true ∧
    (deliverEvent (WsEvent.scan_complete [['a'], ['b']] summary)
      (deliverEvent (WsEvent.item_found ['b'])
        (deliverEvent (WsEvent.item_found ['a']) s))).searchResults = [['a'], ['b']] := by
  have h1 : deliverEvent (WsEvent.item_found ['a']) s =
      { s with pane := [PaneSeg.item ['a']] } := by
    rw [deliverEvent, if_pos hopen]
    show { s with pane := appendSingleResult ['a'] s.pane } = _
    rw [appendSingleResult, if_pos hpane]
    rfl
  have c2 : ({ s with pane := [PaneSeg.item ['a']] } : AppState).wsState = WsReady.OPEN :=
    hopen
  have h2 : deliverEvent (WsEvent.item_found ['b']) { s with pane := [PaneSeg.item ['a']] } =
      { s with pane := [PaneSeg.item ['a'], PaneSeg.item ['b']] } := by
    rw [deliverEvent, if_pos c2]
    rfl
  have c3 : ({ s with pane := [PaneSeg.item ['a'], PaneSeg.item ['b']] } : AppState).wsState
      = WsReady.OPEN := hopen
  have h3 : deliverEvent (WsEvent.scan_complete [['a'], ['b']] summary)
      { s with pane := [PaneSeg.item ['a'], PaneSeg.item ['b']] } =
      { s with
        pane := [PaneSeg.item ['a'], PaneSeg.item ['b']],
        logProgress := none,
        log := s.log ++ [summary],
        searchResults := [['a'], ['b']],
        exportVisible := true } := by
    rw [deliverEvent, if_pos c3]
    rfl
  rw [h1, h2, h3]
  exact ⟨rfl, rfl, rfl, rfl, rfl⟩

/-- C4 witness: the scenario run in the concrete Scanning state ends with
export enabled. -/
theorem events_in_order_spec_witness :
    (deliverEvent (WsEvent.scan_complete [['a'], ['b']] [])
      (deliverEvent (WsEvent.item_found ['b'])
        (deliverEvent (WsEvent.item_found ['a']) scanningState))).exportVisible = true :=
  (events_in_order_spec scanningState [] rfl (by decide)).2.2.2.1

/-! ### Claim C8 -/

/-- C8: an inbound error event during an open session moves it to Failed:
the payload's message text is logged verbatim between the fixed markup, the
channel is closed, and no new channel is opened (no retry). -/
theorem error_event_spec (s : AppState) (msg : List Char)
    (h : s.wsState = WsReady.OPEN) :
    (deliverEvent (WsEvent.error msg) s).wsState = WsReady.CLOSING ∧
    (deliverEvent (WsEvent.error msg) s).openCount = s.openCount ∧
    (deliverEvent (WsEvent.error msg) s).log =
      s.log ++ [errEntryPre ++ msg ++ errEntryPost] := by
  rw [deliverEvent, if_pos h]
  refine ⟨?_, rfl, rfl⟩
  show (if s.wsState = WsReady.OPEN then WsReady.CLOSING else s.wsState) = WsReady.CLOSING
  rw [if_pos h]

/-- C8 witness: the error event in the concrete Scanning state closes the
channel. -/
theorem error_event_spec_witness :
    (deliverEvent (WsEvent.error ['x']) scanningState).wsState = WsReady.CLOSING :=
  (error_event_spec scanningState ['x'] rfl).1

/-! ### Trim lemmas and Claim C6 -/

lemma head_dropWhile_not {α : Type} (p : α → Bool) :
    ∀ (l : List α) (c : α), (l.dropWhile p).head? = some c → p c = false := by
  intro l
  induction l with
  | nil => intro c h; simp [List.dropWhile] at h
  | cons a t ih =>
    intro c h
    rw [List.dropWhile_cons] at h
    by_cases hp : p a
    · rw [if_pos hp] at h
      exact ih c h
    · rw [if_neg hp] at h
      simp only [List.head?_cons, Option.some.injEq] at h
      subst h
      simpa using hp

lemma jsTrimRight_getLast (l : List Char) :
    ∀ c, (jsTrimRight l).getLast? = some c → isJsWhitespace c = false := by
  induction l with
  | nil => intro c h; simp [jsTrimRight] at h
  | cons a t ih =>
    intro c h
    cases htr : jsTrimRight t with
    | nil =>
      simp only [jsTrimRight, htr] at h
      by_cases hw : isJsWhitespace a
      · rw [if_pos hw] at h
        simp at h
      · rw [if_neg hw] at h
        rw [List.getLast?_singleton, Option.some.injEq] at h
        subst h
        simpa using hw
    | cons h0 t0 =>
      simp only [jsTrimRight, htr] at h
      rw [List.getLast?_cons_cons] at h
      apply ih
      rw [htr]
      exact h

lemma jsTrimRight_head (l : List Char) :
    ∀ c, (jsTrimRight l).head? = some c → l.head? = some c := by
  induction l with
  | nil => intro c h; simp [jsTrimRight] at h
  | cons a t _ =>
    intro c h
    cases htr : jsTrimRight t with
    | nil =>
      simp only [jsTrimRight, htr] at h
      by_cases hw : isJsWhitespace a
      · rw [if_pos hw] at h
        simp at h
      · rw [if_neg hw] at h
        simp only [List.head?_cons] at h ⊢
        exact h
    | cons h0 t0 =>
      simp only [jsTrimRight, htr] at h
      simp only [List.head?_cons] at h ⊢
      exact h

lemma jsTrim_head (l : List Char) (c : Char) (h : (jsTrim l).head? = some c) :
    isJsWhitespace c = false := by
  rw [jsTrim] at h
  exact head_dropWhile_not isJsWhitespace l c (jsTrimRight_head _ c h)

lemma jsTrim_getLast (l : List Char) (c : Char) (h : (jsTrim l).getLast? = some c) :
    isJsWhitespace c = false := by
  rw [jsTrim] at h
  exact jsTrimRight_getLast _ c h

lemma parseListField_clean (raw : List Char) :
    (∀ x ∈ parseListField raw,
      x ≠ [] ∧ (∀ c, x.head? = some c → isJsWhitespace c = false) ∧
      (∀ c, x.getLast? = some c → isJsWhitespace c = false)) ∧
    List.Sublist (parseListField raw) ((jsSplitComma raw).map jsTrim) := by
  constructor
  · intro x hx
    rw [parseListField, List.mem_filter] at hx
    obtain ⟨hmem, hne⟩ := hx
    rw [List.mem_map] at hmem
    obtain ⟨y, _, hy⟩ := hmem
    subst hy
    refine ⟨by simpa using hne, ?_, ?_⟩
    · intro c hc
      exact jsTrim_head y c hc
    · intro c hc
      exact jsTrim_getLast y c hc
  · exact List.filter_sublist _

/-- C6: in the built SearchRequest, each of the keyword, excluded-folder and
file-extension lists contains no empty entries and no entries with leading
or trailing whitespace, and each is the order-preserving subsequence of the
trimmed comma-split raw field (only the empty entries are removed). -/
theorem built_fields_clean_spec (f : FormState) :
    (∀ x ∈ (buildSearchPayload f).keywords,
      x ≠ [] ∧ (∀ c, x.head? = some c → isJsWhitespace c = false) ∧
      (∀ c, x.getLast? = some c → isJsWhitespace c = false)) ∧
    List.Sublist (buildSearchPayload f).keywords
      ((jsSplitComma f.keywordsRaw).map jsTrim) ∧
    (∀ x ∈ (buildSearchPayload f).excluded_folders,
      x ≠ [] ∧ (∀ c, x.head? = some c → isJsWhitespace c = false) ∧
      (∀ c, x.getLast? = some c → isJsWhitespace c = false)) ∧
    List.Sublist (buildSearchPayload f).excluded_folders
      ((jsSplitComma f.excludedRaw).map jsTrim) ∧
    (∀ x ∈ (buildSearchPayload f).file_extensions,
      x ≠ [] ∧ (∀ c, x.head? = some c → isJsWhitespace c = false) ∧
      (∀ c, x.getLast? = some c → isJsWhitespace c = false)) ∧
    List.Sublist (buildSearchPayload f).file_extensions
      ((jsSplitComma f.extensionsRaw).map jsTrim) :=
  ⟨(parseListField_clean f.keywordsRaw).1, (parseListField_clean f.keywordsRaw).2,
   (parseListField_clean f.excludedRaw).1, (parseListField_clean f.excludedRaw).2,
   (parseListField_clean f.extensionsRaw).1, (parseListField_clean f.extensionsRaw).2⟩

/-- C6 witness: the entry parsed out of the raw field " a , ,b " is
whitespace-free at its head. -/
theorem built_fields_clean_spec_witness :
    isJsWhitespace 'a' = false :=
  ((built_fields_clean_spec
      { sampleForm with keywordsRaw := [' ', 'a', ' ', ',', ' ', ',', 'b', ' '] }).1
    ['a'] (by decide)).2.1 'a' rfl

/-! ### Claim C9 -/

/-- The three entities the text-node serialisation emits. -/
def ampEnt : List Char := [ '&', 'a', 'm', 'p', ';']

/-- Entity for the less-than character. -/
def ltEnt : List Char := [ '&', 'l', 't', ';']

/-- Entity for the greater-than character. -/
def gtEnt : List Char := [ '&', 'g', 't', ';']

/-- Entity for the no-break-space character. -/
def nbspEnt : List Char := [ '&', 'n', 'b', 's', 'p', ';']

lemma escChar_cases (c : Char) :
    escChar c = ampEnt ∨ escChar c = ltEnt ∨ escChar c = gtEnt ∨ escChar c = nbspEnt ∨
    (escChar c = [c] ∧ c ≠ '&' ∧ c ≠ '<' ∧ c ≠ '>') := by
  rw [escChar]
  split_ifs with h1 h2 h3 h4
  · exact Or.inl rfl
  · exact Or.inr (Or.inl rfl)
  · exact Or.inr (Or.inr (Or.inl rfl))
  · exact Or.inr (Or.inr (Or.inr (Or.inl rfl)))
  · exact Or.inr (Or.inr (Or.inr (Or.inr ⟨rfl, h1, h2, h3⟩)))

lemma escapeHTML_amp_entity (s : List Char) :
    ∀ i : Nat, (escapeHTML s)[i]? = some '&' →
      ∃ t, (escapeHTML s).drop i = ampEnt ++ t ∨
           (escapeHTML s).drop i = ltEnt ++ t ∨
           (escapeHTML s).drop i = gtEnt ++ t ∨
           (escapeHTML s).drop i = nbspEnt ++ t := by
  induction s with
  | nil => intro i h; simp [escapeHTML] at h
  | cons c rest ih =>
    intro i h
    have hexp : escapeHTML (c :: rest) = escChar c ++ escapeHTML rest := by
      simp [escapeHTML]
    rw [hexp] at h ⊢
    by_cases hik : i < (escChar c).length
    · rcases escChar_cases c with hc | hc | hc | hc | ⟨hc, hamp, _, _⟩
      · rw [hc] at h hik ⊢
        simp only [ampEnt, List.length_cons, List.length_nil] at hik
        interval_cases i
        · exact ⟨escapeHTML rest, Or.inl (by simp [ampEnt])⟩
        · simp only [ampEnt, List.cons_append, List.getElem?_cons_succ,
            List.getElem?_cons_zero] at h
          exact absurd h (by decide)
        · simp only [ampEnt, List.cons_append, List.getElem?_cons_succ,
            List.getElem?_cons_zero] at h
          exact absurd h (by decide)
        · simp only [ampEnt, List.cons_append, List.getElem?_cons_succ,
            List.getElem?_cons_zero] at h
          exact absurd h (by decide)
        · simp only [ampEnt, List.cons_append, List.getElem?_cons_succ,
            List.getElem?_cons_zero] at h
          exact absurd h (by decide)
      · rw [hc] at h hik ⊢
        simp only [ltEnt, List.length_cons, List.length_nil] at hik
        interval_cases i
        · exact ⟨escapeHTML rest, Or.inr (Or.inl (by simp [ltEnt]))⟩
        · simp only [ltEnt, List.cons_append, List.getElem?_cons_succ,
            List.getElem?_cons_zero] at h
          exact absurd h (by decide)
        · simp only [ltEnt, List.cons_append, List.getElem?_cons_succ,
            List.getElem?_cons_zero] at h
          exact absurd h (by decide)
        · simp only [ltEnt, List.cons_append, List.getElem?_cons_succ,
            List.getElem?_cons_zero] at h
          exact absurd h (by decide)
      · rw [hc] at h hik ⊢
        simp only [gtEnt, List.length_cons, List.length_nil] at hik
        interval_cases i
        · exact ⟨escapeHTML rest, Or.inr (Or.inr (Or.inl (by simp [gtEnt])))⟩
        · simp only [gtEnt, List.cons_append, List.getElem?_cons_succ,
            List.getElem?_cons_zero] at h
          exact absurd h (by decide)
        · simp only [gtEnt, List.cons_append, List.getElem?_cons_succ,
            List.getElem?_cons_zero] at h
          exact absurd h (by decide)
        · simp only [gtEnt, List.cons_append, List.getElem?_cons_succ,
            List.getElem?_cons_zero] at h
          exact absurd h (by decide)
      · rw [hc] at h hik ⊢
        simp only [nbspEnt, List.length_cons, List.length_nil] at hik
        interval_cases i
        · exact ⟨escapeHTML rest, Or.inr (Or.inr (Or.inr (by simp [nbspEnt])))⟩
        · simp only [nbspEnt, List.cons_append, List.getElem?_cons_succ,
            List.getElem?_cons_zero] at h
          exact absurd h (by decide)
        · simp only [nbspEnt, List.cons_append, List.getElem?_cons_succ,
            List.getElem?_cons_zero] at h
          exact absurd h (by decide)
        · simp only [nbspEnt, List.cons_append, List.getElem?_cons_succ,
            List.getElem?_cons_zero] at h
          exact absurd h (by decide)
        · simp only [nbspEnt, List.cons_append, List.getElem?_cons_succ,
            List.getElem?_cons_zero] at h
          exact absurd h (by decide)
        · simp only [nbspEnt, List.cons_append, List.getElem?_cons_succ,
            List.getElem?_cons_zero] at h
          exact absurd h (by decide)
      · rw [hc] at h hik ⊢
        simp only [List.length_cons, List.length_nil] at hik
        interval_cases i
        simp only [List.cons_append, List.nil_append, List.getElem?_cons_zero,
          Option.some.injEq] at h
        exact absurd h hamp
    · push_neg at hik
      obtain ⟨j, rfl⟩ := Nat.exists_eq_add_of_le hik
      rw [List.getElem?_append_right hik, Nat.add_sub_cancel_left] at h
      rw [List.drop_append]
      exact ih j h

/-- C9: escapeHTML output contains no raw less-than or greater-than
character, and every ampersand in it starts one of the entity encodings
amp, lt, gt, nbsp — so paths inserted into the result markup cannot open an
HTML element. -/
theorem escapeHTML_safe_spec (s : List Char) :
    '<' ∉ escapeHTML s ∧ '>' ∉ escapeHTML s ∧
    (∀ i : Nat, (escapeHTML s)[i]? = some '&' →
      ∃ t, (escapeHTML s).drop i = ampEnt ++ t ∨
           (escapeHTML s).drop i = ltEnt ++ t ∨
           (escapeHTML s).drop i = gtEnt ++ t ∨
           (escapeHTML s).drop i = nbspEnt ++ t) := by
  refine ⟨?_, ?_, escapeHTML_amp_entity s⟩
  · intro hmem
    rw [escapeHTML, List.mem_flatMap] at hmem
    obtain ⟨c, _, hc⟩ := hmem
    rcases escChar_cases c with h | h | h | h | ⟨h, _, hlt, _⟩ <;> rw [h] at hc
    · exact absurd hc (by decide)
    · exact absurd hc (by decide)
    · exact absurd hc (by decide)
    · exact absurd hc (by decide)
    · rw [List.mem_singleton] at hc
      exact hlt hc.symm
  · intro hmem
    rw [escapeHTML, List.mem_flatMap] at hmem
    obtain ⟨c, _, hc⟩ := hmem
    rcases escChar_cases c with h | h | h | h | ⟨h, _, _, hgt⟩ <;> rw [h] at hc
    · exact absurd hc (by decide)
    · exact absurd hc (by decide)
    · exact absurd hc (by decide)
    · exact absurd hc (by decide)
    · rw [List.mem_singleton] at hc
      exact hgt hc.symm

/-- C9 witness: the escaped form of a markup-bearing path contains no raw
less-than character. -/
theorem escapeHTML_safe_spec_witness :
    '<' ∉ escapeHTML ['a', '<', 'b'] :=
  (escapeHTML_safe_spec ['a', '<', 'b']).1

/-! ### Claim C10 -/

/-- C10: a cancelled prompt (null) or an empty name makes saveCurrentSearch
return before any write: the saved-search store is completely unchanged. -/
theorem save_no_name_spec (m : SavedSearches) (p : SearchPayload) :
    saveCurrentSearch none m p = m ∧ saveCurrentSearch (some []) m p = m := by
  constructor
  · rfl
  · simp [saveCurrentSearch]

end PFS
